import Mathlib

/-!
# Verification of the mergekit plan compiler (`mergekit/plan.py`)

A shallow embedding of `MergePlanner` and the data it manipulates, together
with theorems settling the frozen claims about the plan compiler: slice
normalization, parameter resolution, per-tensor task construction, layer and
slice iteration, and top-level assembly.

Collaborator types that `plan.py` imports (model references, weight
descriptors, architecture info, config reader, task nodes) are embedded with
exactly the fields and behavior `plan.py` observes; where the collaborator's
own code is outside the sources under verification, the definition carries a
doc comment saying what it is modelled from.
-/

namespace Mergekit

/-- Opaque, immutable identity of a source model (`mergekit.common.ModelReference`):
a location plus optional revision, compared by identity. -/
structure ModelReference where
  path : String
  revision : Option String := none
deriving DecidableEq

/-- Weight descriptor (`mergekit.architecture.WeightInfo`): the fields `plan.py`
reads are the canonical name, the acceptable alternate names, and the flags
marking an embedding / output-projection weight. -/
structure WeightInfo where
  name : String
  aliases : List String := []
  is_embed : Bool := false
  is_lm_head : Bool := false
deriving DecidableEq

instance : Inhabited WeightInfo := ⟨{ name := "" }⟩

/-- Parameter values: the claims never compute with a parameter's value, only
with its presence, so an integer stands in for the numeric payload. -/
abbrev ParamValue := Int

/-- An entry of the shorthand "models to merge" list
(`mergekit.config.InputModelDefinition`): a model and its listed parameter
overrides. -/
structure InputModelDefinition where
  model : ModelReference
  parameters : Option (List (String × ParamValue)) := none
deriving DecidableEq

/-- `mergekit.config.InputSliceDefinition`: a model, a half-open layer range
`[start, end)` stored as in the configuration file, and optional parameter
overrides. -/
structure InputSliceDefinition where
  model : ModelReference
  layer_range : Int × Int
  parameters : Option (List (String × ParamValue)) := none
deriving DecidableEq

/-- `mergekit.config.OutputSliceDefinition`: the ordered sources of one output
slice. -/
structure OutputSliceDefinition where
  sources : List InputSliceDefinition
deriving DecidableEq

/-- Merge configuration, with the fields `plan.py` reads. The four override
tables are modelled from the spec: parameter overrides attachable at
per-tensor-per-model, per-tensor, per-model and global scope (§4.2, §6); the
concrete override storage lives in `mergekit/config.py`, outside the sources
under verification. -/
structure MergeConfiguration where
  models : Option (List InputModelDefinition) := none
  slices : Option (List OutputSliceDefinition) := none
  merge_method : String := ""
  base_model : Option ModelReference := none
  dtype : Option String := none
  tokenizer_source : Option String := none
  align_weights : Bool := false
  tensor_model_overrides : List ((String × ModelReference × String) × ParamValue) := []
  tensor_overrides : List ((String × String) × ParamValue) := []
  model_overrides : List ((ModelReference × String) × ParamValue) := []
  global_overrides : List (String × ParamValue) := []

/-- Python truthiness of an `Optional[List]` field: `None` and `[]` are falsy. -/
def optListTruthy {α : Type} : Option (List α) → Bool
  | none => false
  | some l => !l.isEmpty

/-- Python truthiness of an `Optional[str]` field: `None` and `""` are falsy. -/
def strTruthy : Option String → Bool
  | none => false
  | some s => !(s == "")

/-- Errors surfaced during planning. `runtime` embeds a raised
`RuntimeError`/index error; `missingParameter` embeds the configuration error a
required-but-unresolvable parameter raises, carrying the parameter, tensor and
model it names. -/
inductive PlanError where
  | runtime (msg : String)
  | missingParameter (param : String) (tensor : String) (model : Option ModelReference)
deriving DecidableEq

/-- The interpolation fraction computed in `MergePlanner.plan_slice`
(plan.py lines 266–271): `t = idx / (num_layers - 1)` when `num_layers > 1`,
else `t = 1`. -/
def slice_t (num_layers : Int) (idx : Nat) : ℚ :=
  if num_layers > 1 then (idx : ℚ) / ((num_layers : ℚ) - 1) else 1

/-- The list of interpolation fractions a slice of common length `N` passes to
`plan_layer`, in layer order. -/
def slice_ts (N : Nat) : List ℚ :=
  (List.range N).map (fun idx => slice_t (N : Int) idx)

/-- Per-model architecture metadata as `plan.py` consumes it
(`mergekit.architecture.ConfiguredArchitectureInfo`, an external collaborator):
layer count, ordered pre/post weight descriptors, and the per-layer weight
descriptors indexed by absolute depth. -/
structure ConfiguredArchitectureInfo where
  num_layers : Nat
  pre_weights : List WeightInfo := []
  post_weights : List WeightInfo := []
  layer_weights : Int → List WeightInfo := fun _ => []

/-- Output-architecture metadata as `plan.py` consumes it
(`self.arch_info`): per-layer weight descriptors for the output model and the
declared procedural alignment spaces. -/
structure ArchitectureInfo where
  layer_weights : Nat → List WeightInfo := fun _ => []
  procedural_spaces : List String := []

/-- The slice built for one entry of the shorthand model list
(`normalize_config`, plan.py lines 130–134): full depth `[0, num_layers)` with
the model's listed parameter overrides. -/
def full_slice (arch : ModelReference → ConfiguredArchitectureInfo)
    (mi : InputModelDefinition) : InputSliceDefinition :=
  { model := mi.model,
    layer_range := (0, ((arch mi.model).num_layers : Int)),
    parameters := mi.parameters }

/-- One iteration of the `for model_in in self.config.models` loop of
`normalize_config` (plan.py lines 128–139): the accumulator is the
`base_model` slice variable (overwritten on a match) and the growing
`slices_in` list. -/
def norm_step (arch : ModelReference → ConfiguredArchitectureInfo)
    (bm : Option ModelReference)
    (acc : Option InputSliceDefinition × List InputSliceDefinition)
    (mi : InputModelDefinition) :
    Option InputSliceDefinition × List InputSliceDefinition :=
  let sl := full_slice arch mi
  if some mi.model = bm then (some sl, acc.2) else (acc.1, acc.2 ++ [sl])

/-- The `slices_in` list `normalize_config` builds from the shorthand model
list (plan.py lines 125–151): the loop over the models, then the base-model
fix-up that forces a (possibly synthetic) base slice to position 0. -/
def norm_sources (arch : ModelReference → ConfiguredArchitectureInfo)
    (cfg : MergeConfiguration) : List InputSliceDefinition :=
  let ms := cfg.models.getD []
  let st := ms.foldl (norm_step arch cfg.base_model) (none, [])
  match cfg.base_model with
  | some b =>
    (match st.1 with
      | some bs => bs
      | none =>
        { model := b,
          layer_range := (0, ((arch b).num_layers : Int)),
          parameters := none }) :: st.2
  | none => st.2

/-- `MergePlanner.normalize_config` (plan.py lines 117–153): rewrite the
shorthand model list into a single explicit output slice, forcing a declared
base model's full-depth slice to position 0 (synthesizing one if it was not
listed), raising when both forms are set, and clearing the shorthand field. -/
def normalize_config (arch : ModelReference → ConfiguredArchitectureInfo)
    (cfg : MergeConfiguration) : Except PlanError MergeConfiguration :=
  if optListTruthy cfg.models then
    if optListTruthy cfg.slices then
      .error (.runtime "Must specify either models to merge or output slices")
    else
      .ok { cfg with slices := some [{ sources := norm_sources arch cfg }], models := none }
  else
    .ok cfg

/-- Concrete architecture metadata used by the C7 witness: every model reports
5 layers and no pre/post weights. -/
def archW7 : ModelReference → ConfiguredArchitectureInfo := fun _ => { num_layers := 5 }

/-- Concrete shorthand configuration used by the C7 witness: `modelB` and
`modelC` listed, base model `modelA` not listed. -/
def cfgW7 : MergeConfiguration :=
  { models := some [{ model := { path := "modelB" } }, { model := { path := "modelC" } }],
    base_model := some { path := "modelA" } }

/-- First value bound to a key in an override table. -/
def lookupOv {κ : Type} [DecidableEq κ] (l : List (κ × ParamValue)) (k : κ) :
    Option ParamValue :=
  (l.find? (fun kv => decide (kv.1 = k))).map (fun kv => kv.2)

/-- `mergekit.config.ConfigReader` as `plan.py` uses it: the configuration plus
the resolution context (tensor name, interpolation fraction `t`, owning output
slice). -/
structure ConfigReader where
  config : MergeConfiguration
  t : ℚ
  tensor_name : Option String := none
  slice_out : Option OutputSliceDefinition := none

/-- `ConfigReader.for_tensor`: the same reader scoped to one tensor name. -/
def ConfigReader.for_tensor (cr : ConfigReader) (name : String) : ConfigReader :=
  { cr with tensor_name := some name }

/-- `ConfigReader.with_t`: the same reader at interpolation fraction `t`. -/
def ConfigReader.with_t (cr : ConfigReader) (t : ℚ) : ConfigReader :=
  { cr with t := t }

/-- `ConfigReader.for_out_slice`: the same reader scoped to one output slice. -/
def ConfigReader.for_out_slice (cr : ConfigReader) (s : OutputSliceDefinition) :
    ConfigReader :=
  { cr with slice_out := some s }

/-- Modelled from the spec: `ConfigReader.parameter` (mergekit/config.py, which
is outside the sources under verification). Resolution follows the §4.2
precedence chain — per-tensor-per-model override, per-tensor override,
per-model override, global override, declared default — and a parameter whose
`required` flag is set that resolves to no value is a configuration error
naming the parameter, the tensor, and the model. -/
def ConfigReader.parameter (cr : ConfigReader) (name : String)
    (model : Option ModelReference) (required : Bool) (default : Option ParamValue) :
    Except PlanError (Option ParamValue) :=
  let cfg := cr.config
  let overridden : Option ParamValue :=
    ((match cr.tensor_name, model with
      | some tn, some m => lookupOv cfg.tensor_model_overrides (tn, m, name)
      | _, _ => none).orElse (fun _ =>
    (match cr.tensor_name with
      | some tn => lookupOv cfg.tensor_overrides (tn, name)
      | none => none).orElse (fun _ =>
    (match model with
      | some m => lookupOv cfg.model_overrides (m, name)
      | none => none).orElse (fun _ =>
    lookupOv cfg.global_overrides name))))
  match overridden with
  | some v => .ok (some v)
  | none =>
    match default with
    | some d => .ok (some d)
    | none =>
      if required then .error (.missingParameter name (cr.tensor_name.getD "") model)
      else .ok none

/-- A merge-method parameter schema entry
(`mergekit.merge_methods.base.ConfigParameterDef`): name, required flag,
declared default. -/
structure ParamDef where
  name : String
  required : Bool := false
  default_value : Option ParamValue := none
deriving DecidableEq

/-- A merge method as `plan.py` consumes it
(`mergekit.merge_methods.base.MergeMethod`, external): an identity, the global
parameter schema (`parameters()`), and the tensor-scoped parameter schema
(`tensor_parameters()`). -/
structure MergeMethod where
  id : String
  params : List ParamDef := []
  tensor_params : List ParamDef := []
deriving DecidableEq

/-- Resolution of one tensor-scoped parameter for one source model inside
`MergePlanner.plan_tensor` (plan.py lines 175–186): the required flag is
`p.required and not is_base`, suppressing requiredness exactly for the base
model. -/
def tensor_param_value (cr : ConfigReader) (model : ModelReference)
    (weight_in_name : String) (p : ParamDef) : Except PlanError (Option ParamValue) :=
  let is_base := decide (some model = cr.config.base_model)
  (cr.for_tensor weight_in_name).parameter p.name (some model) (p.required && !is_base)
    p.default_value

/-- No override for parameter `pname` reaches (tensor `tname`, model `m`)
through any scope of the chain. -/
def no_override (cfg : MergeConfiguration) (tname : String) (m : ModelReference)
    (pname : String) : Prop :=
  lookupOv cfg.tensor_model_overrides (tname, m, pname) = none ∧
  lookupOv cfg.tensor_overrides (tname, pname) = none ∧
  lookupOv cfg.model_overrides (m, pname) = none ∧
  lookupOv cfg.global_overrides pname = none

/-- `mergekit.io.tasks.TensorWriterTask` as constructed in
`MergePlanner.__init__` (plan.py lines 70–74). -/
structure WriterTask where
  out_path : String
  max_shard_size : Nat
  safe_serialization : Bool
deriving DecidableEq

/-- `mergekit.io.tasks.LoadTensor` as constructed in `plan_tensor`
(plan.py lines 193–198). -/
structure LoadTensorTask where
  model : ModelReference
  tensor : String
  dtype : Option String
  aliases : List String
deriving DecidableEq

/-- One per-model input of the gather node: either the bare load task, or the
load task wrapped by the space planner's alignment task
(`SpacePlanner.align_tensor`, plan.py lines 200–204). -/
inductive InputTask where
  | plain (load : LoadTensorTask)
  | aligned (model : ModelReference) (weight : String) (load : LoadTensorTask)
deriving DecidableEq

/-- `mergekit.matching.CollectDictTask`: the per-model inputs in insertion
order, keyed by model identity (plan.py lines 206–208). -/
structure GatherTensorsTask where
  tasks : List (ModelReference × InputTask)
deriving DecidableEq

/-- The compute task a merge method's `make_task` returns (plan.py lines
210–220): chosen method, output weight, gathered inputs, resolved global and
per-model tensor parameters, and the base-model identity. -/
structure MergeTensorTask where
  method : String
  output_weight : WeightInfo
  tensors : GatherTensorsTask
  parameters : List (String × Option ParamValue)
  tensor_parameters : List (ModelReference × List (String × Option ParamValue))
  base_model : Option ModelReference
deriving DecidableEq

/-- `mergekit.io.tasks.SaveTensor` (plan.py lines 221–226). -/
structure SaveTensorTask where
  tensor_name : String
  tensor_task : MergeTensorTask
  writer_task : WriterTask
  clone : Bool
deriving DecidableEq

/-- `mergekit.tokenizer.BuildTokenizer` as constructed in `__init__`
(plan.py lines 76–82). -/
structure BuildTokenizerTask where
  base_model : Option ModelReference
  referenced_models : List ModelReference
  tokenizer_source : String
  trust_remote_code : Bool
deriving DecidableEq

/-- An entry of the task list `plan` returns: save tasks accumulated by
`plan_tensor`, the finalize task (whose dependencies are the save tasks
appended before it), and the independent tokenizer-build task. -/
inductive Task where
  | save (t : SaveTensorTask)
  | finalize (tensor_save_tasks : List Task) (writer_task : WriterTask)
  | tokenizerBuild (t : BuildTokenizerTask)

/-- Observable calls into the alignment accumulator (`SpacePlanner`), in
program order: `add_procedural_space` (plan.py lines 284–286), `add_weight`
(line 189), and `align_tensor` (lines 200–204). -/
inductive PlanEvent where
  | registerSpace (space : String)
  | registerWeight (weight : String) (pairs : List (ModelReference × String))
  | alignLoad (model : ModelReference) (weight : String)
deriving DecidableEq

/-- Mutable planner state threaded through a planning pass: the accumulated
task list (`self._tasks`), the alignment-accumulator call trace, and
`self._current_layers`. -/
structure PlanState where
  tasks : List Task
  events : List PlanEvent
  current_layers : Nat

/-- `mergekit.options.MergeOptions` fields `plan.py` reads. -/
structure MergeOptions where
  clone_tensors : Bool := false
  trust_remote_code : Bool := false
  out_shard_size : Nat := 0
  safe_serialization : Bool := true

/-- The immutable inputs of one `MergePlanner`: configuration, output path,
options, per-model and output architecture metadata, the merge method resolved
from the registry, and `config.referenced_models()` (computed in
`mergekit/config.py`, outside the sources under verification). -/
structure PlannerEnv where
  config : MergeConfiguration
  out_path : String := "out"
  options : MergeOptions := {}
  arch_dict : ModelReference → ConfiguredArchitectureInfo := fun _ => { num_layers := 0 }
  arch_info : ArchitectureInfo := {}
  method : MergeMethod
  referenced_models : List ModelReference := []

/-- `self._writer_task` (plan.py lines 70–74). -/
def PlannerEnv.writer_task (env : PlannerEnv) : WriterTask :=
  { out_path := env.out_path, max_shard_size := env.options.out_shard_size,
    safe_serialization := env.options.safe_serialization }

/-- `self._tokenizer_task` (plan.py lines 76–82): built iff
`config.tokenizer_source` is truthy. -/
def PlannerEnv.tokenizer_task (env : PlannerEnv) : Option BuildTokenizerTask :=
  if strTruthy env.config.tokenizer_source then
    some { base_model := env.config.base_model,
           referenced_models := env.referenced_models,
           tokenizer_source := env.config.tokenizer_source.getD "",
           trust_remote_code := env.options.trust_remote_code }
  else none

/-- Whether `self._space_planner` exists (plan.py lines 84–85): a `SpacePlanner`
is created iff the configuration declares a base model AND sets the alignment
toggle. -/
def PlannerEnv.space_planner_active (env : PlannerEnv) : Bool :=
  env.config.base_model.isSome && env.config.align_weights

/-- Modelled from the spec: the specialized vocabulary-permutation merge method
(`mergekit.merge_methods.tokenizer_permute.TokenizerPermutationMerge`, outside
the sources under verification). Only its identity and (empty, as far as the
claims are concerned) parameter schemas are observed here. -/
def tokenizerPermutationMerge : MergeMethod :=
  { id := "tokenizer_permute" }

/-- Method selection in `plan_tensor` (plan.py lines 162–166): substitute the
vocabulary-permutation method iff a tokenizer-build task exists and the output
weight is an embedding or lm-head weight. -/
def select_merge_method (tokenizer_task : Option BuildTokenizerTask)
    (method : MergeMethod) (weight : WeightInfo) : MergeMethod :=
  if tokenizer_task.isSome && (weight.is_embed || weight.is_lm_head) then
    tokenizerPermutationMerge
  else method

/-- `MergeMethod.make_task` (external collaborator contract, §6): returns the
compute node carrying the method, gathered inputs, resolved parameters, and
base model. -/
def MergeMethod.make_task (m : MergeMethod) (output_weight : WeightInfo)
    (tensors : GatherTensorsTask) (parameters : List (String × Option ParamValue))
    (tensor_parameters : List (ModelReference × List (String × Option ParamValue)))
    (base_model : Option ModelReference) : MergeTensorTask :=
  { method := m.id, output_weight := output_weight, tensors := tensors,
    parameters := parameters, tensor_parameters := tensor_parameters,
    base_model := base_model }

/-- Error-propagating map over a list, first failure wins (the behavior of a
Python `for` loop whose body may raise). -/
def mapME {α β : Type} (f : α → Except PlanError β) : List α → Except PlanError (List β)
  | [] => .ok []
  | x :: xs =>
    match f x with
    | .error e => .error e
    | .ok y =>
      match mapME f xs with
      | .error e => .error e
      | .ok ys => .ok (y :: ys)

/-- Error-propagating fold over a list, first failure wins (a Python `for` loop
threading mutable planner state). -/
def foldE {α : Type} (f : PlanState → α → Except PlanError PlanState) :
    PlanState → List α → Except PlanError PlanState
  | st, [] => .ok st
  | st, x :: xs =>
    match f st x with
    | .error e => .error e
    | .ok st' => foldE f st' xs

/-- Python `zip(*lists)` over an arbitrary number of lists: tuples of the i-th
elements, truncated at the shortest list; `zip()` of no lists is empty. -/
def pyZip {α : Type} [Inhabited α] (ls : List (List α)) : List (List α) :=
  match ls with
  | [] => []
  | l0 :: rest =>
    let n := rest.foldl (fun m l => min m l.length) l0.length
    (List.range n).map (fun i => ls.map (fun l => l.getD i default))

/-- The per-model load tasks `plan_tensor` builds (plan.py lines 191–198), in
`zip(models, weights_in)` order. -/
def planned_loads (env : PlannerEnv) (weights_in : List WeightInfo)
    (models : List ModelReference) : List (ModelReference × LoadTensorTask) :=
  (models.zip weights_in).map (fun mw =>
    (mw.1, { model := mw.1, tensor := mw.2.name, dtype := env.config.dtype,
             aliases := mw.2.aliases }))

/-- The gather inputs of `plan_tensor`: the load tasks, each wrapped by that
model's alignment task when the space planner is active (plan.py lines
200–208). -/
def planned_inputs (env : PlannerEnv) (weight : WeightInfo)
    (weights_in : List WeightInfo) (models : List ModelReference) :
    List (ModelReference × InputTask) :=
  if env.space_planner_active then
    (planned_loads env weights_in models).map
      (fun ml => (ml.1, InputTask.aligned ml.1 weight.name ml.2))
  else
    (planned_loads env weights_in models).map
      (fun ml => (ml.1, InputTask.plain ml.2))

/-- The save task `plan_tensor` appends for one output weight (plan.py lines
210–226), given the resolved global and per-model tensor parameters. -/
def planned_save (env : PlannerEnv) (weight : WeightInfo)
    (weights_in : List WeightInfo) (models : List ModelReference)
    (global_params : List (String × Option ParamValue))
    (tensor_params : List (ModelReference × List (String × Option ParamValue))) :
    SaveTensorTask :=
  { tensor_name := weight.name,
    tensor_task := (select_merge_method env.tokenizer_task env.method weight).make_task
      weight { tasks := planned_inputs env weight weights_in models }
      global_params tensor_params env.config.base_model,
    writer_task := env.writer_task,
    clone := env.options.clone_tensors }

/-- The alignment-accumulator calls one `plan_tensor` invocation performs, in
program order (plan.py lines 188–189 then 200–204): `add_weight` with the
per-model input pairs, then one `align_tensor` per load task. Empty when the
space planner is not active. -/
def planned_events (env : PlannerEnv) (weight : WeightInfo)
    (weights_in : List WeightInfo) (models : List ModelReference) : List PlanEvent :=
  if env.space_planner_active then
    PlanEvent.registerWeight weight.name
        ((models.zip weights_in).map (fun mw => (mw.1, mw.2.name))) ::
      (planned_loads env weights_in models).map
        (fun ml => PlanEvent.alignLoad ml.1 weight.name)
  else []

/-- `MergePlanner.plan_tensor` (plan.py lines 155–227): select the merge
method, resolve global then per-model tensor parameters (failing fast on the
first unresolvable required parameter), record the space-planner calls, and
append the save task built over the (possibly alignment-wrapped) load tasks. -/
def plan_tensor (env : PlannerEnv) (st : PlanState) (weight : WeightInfo)
    (weights_in : List WeightInfo) (models : List ModelReference)
    (cfg_reader : ConfigReader) : Except PlanError PlanState :=
  let tensor_merge_method := select_merge_method env.tokenizer_task env.method weight
  let cfg_g := cfg_reader.for_tensor weight.name
  match mapME (fun p => (cfg_g.parameter p.name none p.required p.default_value).map
      (fun v => (p.name, v))) tensor_merge_method.params with
  | .error e => .error e
  | .ok global_params =>
    match mapME (fun mw : ModelReference × WeightInfo =>
        (mapME (fun p => (tensor_param_value cfg_reader mw.1 mw.2.name p).map
            (fun v => (p.name, v))) tensor_merge_method.tensor_params).map
          (fun ps => (mw.1, ps)))
        (models.zip weights_in) with
    | .error e => .error e
    | .ok tensor_params =>
      .ok { st with
        tasks := st.tasks ++
          [Task.save (planned_save env weight weights_in models global_params
            tensor_params)],
        events := st.events ++ planned_events env weight weights_in models }

/-- `MergePlanner.plan_layer` (plan.py lines 229–253): plan one tensor per
output weight at this depth, pairing each source's weight at absolute depth
`layer_range[0] + layer_offset`, then advance `self._current_layers`. -/
def plan_layer (env : PlannerEnv) (st : PlanState)
    (sources : List InputSliceDefinition) (layer_offset : Nat) (t : ℚ)
    (cfg_reader : ConfigReader) : Except PlanError PlanState :=
  let weights_out := env.arch_info.layer_weights st.current_layers
  let weights_in : List (List WeightInfo) := sources.map (fun s =>
    (env.arch_dict s.model).layer_weights (s.layer_range.1 + layer_offset))
  match foldE (fun st iw =>
      plan_tensor env st iw.2 (weights_in.map (fun l => l.getD iw.1 default))
        (sources.map (fun s => s.model)) (cfg_reader.with_t t))
      st weights_out.enum with
  | .error e => .error e
  | .ok st' => .ok { st' with current_layers := st'.current_layers + 1 }

/-- `MergePlanner.plan_slice` (plan.py lines 255–278): verify all sources share
one layer-range length (an empty source list dies on the `slice_lengths[0]`
index), then plan each layer position with the interpolation fraction
`slice_t`. -/
def plan_slice (env : PlannerEnv) (st : PlanState) (definition : OutputSliceDefinition) :
    Except PlanError PlanState :=
  match definition.sources.map (fun s => s.layer_range.2 - s.layer_range.1) with
  | [] => .error (.runtime "IndexError: list index out of range")
  | l0 :: rest =>
    if !(l0 :: rest).all (fun s => s == l0) then
      .error (.runtime "All inputs to a slice must contain the same number of layers")
    else
      let cfg_reader : ConfigReader :=
        { config := env.config, t := 0, slice_out := some definition }
      foldE (fun st idx =>
          plan_layer env st definition.sources idx (slice_t l0 idx) cfg_reader)
        st (List.range l0.toNat)

/-- The planner state at the top of `plan` after the task-list reset (plan.py
line 282) and the procedural-space registration loop (lines 284–286). -/
def init_state (env : PlannerEnv) : PlanState :=
  { tasks := [],
    events := if env.space_planner_active then
        env.arch_info.procedural_spaces.map PlanEvent.registerSpace
      else [],
    current_layers := 0 }

/-- The body of `MergePlanner.plan` after normalization (plan.py lines
282–336), reading the already-normalized configuration: register procedural
spaces when the space planner is active, plan pre-weights at `t = 0` with the
first slice's models, plan every output slice, plan post-weights at `t = 1`
with the last slice's models, append the finalize task depending on every
accumulated save task, and append the tokenizer-build task when one was
requested. -/
def plan_body (env : PlannerEnv) : Except PlanError (List Task × List PlanEvent) :=
  match env.config.slices.getD [] with
  | [] => .error (.runtime "no output slices defined")
  | s0 :: rest =>
    let pre_models := s0.sources.map (fun s => s.model)
    match foldE (fun st ws =>
        plan_tensor env st (ws.headD default) ws pre_models
          (ConfigReader.for_out_slice
            { config := env.config, t := 0, tensor_name := some (ws.headD default).name }
            s0))
        (init_state env)
        (pyZip (pre_models.map (fun m => (env.arch_dict m).pre_weights))) with
    | .error e => .error e
    | .ok st =>
      match foldE (fun st sl => plan_slice env st sl) st (s0 :: rest) with
      | .error e => .error e
      | .ok st =>
        let last_slice := rest.getLastD s0
        let post_models := last_slice.sources.map (fun s => s.model)
        match foldE (fun st ws =>
            plan_tensor env st (ws.headD default) ws post_models
              (ConfigReader.for_out_slice
                { config := env.config, t := 1,
                  tensor_name := some (ws.headD default).name }
                last_slice))
            st (pyZip (post_models.map (fun m => (env.arch_dict m).post_weights))) with
        | .error e => .error e
        | .ok st =>
          let res := st.tasks ++ [Task.finalize st.tasks env.writer_task]
          match env.tokenizer_task with
          | some tk => .ok (res ++ [Task.tokenizerBuild tk], st.events)
          | none => .ok (res, st.events)

/-- `MergePlanner.plan` (plan.py lines 280–336): normalize the configuration
(mutating `self.config`), then run the planning body over the normalized
configuration. -/
def plan (env : PlannerEnv) : Except PlanError (List Task × List PlanEvent) :=
  match normalize_config env.arch_dict env.config with
  | .error e => .error e
  | .ok cfg => plan_body { env with config := cfg }

/-- Whether a task-list entry is a save task. -/
def isSaveTask : Task → Bool
  | .save _ => true
  | _ => false

/-- Whether an alignment-accumulator call is a procedural-space
registration. -/
def PlanEvent.isRegisterSpace : PlanEvent → Bool
  | .registerSpace _ => true
  | _ => false

/-- Whether a gather input is wrapped by an alignment task. -/
def InputTask.isAligned : InputTask → Bool
  | .aligned _ _ _ => true
  | .plain _ => false

/-- The source tensor name a gather input loads. -/
def InputTask.sourceTensor : InputTask → String
  | .aligned _ _ l => l.tensor
  | .plain l => l.tensor

/-- The per-model (model, source tensor) pairs of a save task's gather node. -/
def save_pairs (sv : SaveTensorTask) : List (ModelReference × String) :=
  sv.tensor_task.tensors.tasks.map (fun mi => (mi.1, mi.2.sourceTensor))

/-- Whether every gather input of a save task is alignment-wrapped. -/
def save_aligned (sv : SaveTensorTask) : Bool :=
  sv.tensor_task.tensors.tasks.all (fun mi => mi.2.isAligned)

/-- When the space planner is active: every save task in the state has fully
alignment-wrapped inputs and a matching `add_weight` call in the recorded
trace. -/
def GoodState (active : Bool) (st : PlanState) : Prop :=
  active = true → ∀ sv, Task.save sv ∈ st.tasks →
    save_aligned sv = true ∧
    PlanEvent.registerWeight sv.tensor_name (save_pairs sv) ∈ st.events

/-- Invariant between planner states across one planning step: the task list
grows by save tasks only, the event trace grows by non-`registerSpace` events
only, and `GoodState` is preserved. -/
def StepOK (active : Bool) (st st' : PlanState) : Prop :=
  (∃ suffix, st'.tasks = st.tasks ++ suffix ∧ suffix.all isSaveTask = true) ∧
  (∃ es, st'.events = st.events ++ es ∧
    es.all (fun e => !PlanEvent.isRegisterSpace e) = true) ∧
  (GoodState active st → GoodState active st')

/-- Configuration used by the C5 witness: both the shorthand model list and an
explicit output slice are set. -/
def cfgC5 : MergeConfiguration :=
  { models := some [{ model := { path := "modelA" } }],
    slices := some [{ sources := [] }] }

/-- Planner environment used by the C5 witness. -/
def envC5 : PlannerEnv :=
  { config := cfgC5, method := { id := "linear" } }

/-- A fresh planner state: the task list `plan` resets, no recorded
alignment-accumulator calls, layer counter zero. -/
def stEmpty : PlanState := { tasks := [], events := [], current_layers := 0 }

/-- Environment used by the C4 theorems: empty configuration, linear method. -/
def envC4 : PlannerEnv := { config := {}, method := { id := "linear" } }

/-- An output slice whose sources have layer-range lengths 2 and 3. -/
def sliceC4a : OutputSliceDefinition :=
  { sources := [{ model := { path := "modelA" }, layer_range := (0, 2) },
                { model := { path := "modelB" }, layer_range := (0, 3) }] }

/-- A different output slice whose sources have layer-range lengths 1 and 5. -/
def sliceC4b : OutputSliceDefinition :=
  { sources := [{ model := { path := "modelC" }, layer_range := (1, 2) },
                { model := { path := "modelD" }, layer_range := (0, 5) }] }

/-- Environment used by the C3 witness: a tokenizer merge is requested and the
configured method is linear. -/
def envC3 : PlannerEnv :=
  { config := { tokenizer_source := some "union" }, method := { id := "linear" } }

/-- An embedding weight, as flagged by the architecture metadata. -/
def wEmb : WeightInfo := { name := "embed_tokens.weight", is_embed := true }

/-- A model reference shared by several witnesses. -/
def mrefA : ModelReference := { path := "modelA" }

/-- Config reader used by the C3 witness. -/
def crC3 : ConfigReader := { config := envC3.config, t := 0 }

/-- A per-layer attention weight used by several witnesses. -/
def wQ : WeightInfo := { name := "q_proj" }

/-- Architecture metadata shared by the C8 witness models: one pre weight
(the embedding), one weight per layer, one post weight (the lm-head). -/
def archDictC8 : ModelReference → ConfiguredArchitectureInfo := fun _ =>
  { num_layers := 2, pre_weights := [wEmb],
    post_weights := [{ name := "lm_head", is_lm_head := true }],
    layer_weights := fun _ => [wQ] }

/-- Environment used by the C8 witness: one explicit two-layer slice and a
requested tokenizer merge, so the returned list ends with the tokenizer-build
task after the finalize task. -/
def envC8 : PlannerEnv :=
  { config := { slices := some [{ sources := [{ model := mrefA, layer_range := (0, 2) }] }],
                tokenizer_source := some "union" },
    arch_dict := archDictC8,
    arch_info := { layer_weights := fun _ => [wQ] },
    method := { id := "linear" },
    referenced_models := [mrefA] }

/-- Output-architecture metadata used by the C9 theorems: one weight per layer
and one declared procedural alignment space. -/
def archInfoC9 : ArchitectureInfo :=
  { layer_weights := fun _ => [wQ], procedural_spaces := ["space_attn"] }

/-- Environment refuting C9 as stated: the alignment toggle is enabled but no
base model is declared, so `__init__` creates no `SpacePlanner` (plan.py lines
84–85) and nothing is registered or aligned. -/
def envC9 : PlannerEnv :=
  { config := { slices := some [{ sources := [{ model := mrefA, layer_range := (0, 1) }] }],
                align_weights := true },
    arch_dict := fun _ => { num_layers := 1, layer_weights := fun _ => [wQ] },
    arch_info := archInfoC9,
    method := { id := "linear" } }

/-- The C9 witness environment: the alignment toggle enabled AND a base model
declared, so the space planner is active. -/
def envC9b : PlannerEnv :=
  { envC9 with config := { envC9.config with base_model := some mrefA } }

/-- Python attribute semantics of `MergePlanner._tasks` for two planner
instances. The annotated class-body default `_tasks: List[Task] = []` (plan.py
line 53) is evaluated once at class creation, yielding ONE list object stored
as the class attribute; `__init__` (plan.py lines 58–115) never assigns
`self._tasks`, so a freshly constructed instance resolves `_tasks` to that
shared object. Attribute reads consult the instance attribute first and fall
back to the class attribute; `self._tasks.append(...)` (plan.py line 227)
mutates whichever object the lookup yields; `self._tasks = []` (plan.py line
282, top of `plan`) binds a fresh instance-scoped list. -/
structure TwoPlanners where
  classTasks : List Task
  instA : Option (List Task)
  instB : Option (List Task)

/-- Two `MergePlanner` instances immediately after construction: neither has
an instance-level `_tasks`; the class attribute is still the one empty list. -/
def twoFreshPlanners : TwoPlanners :=
  { classTasks := [], instA := none, instB := none }

/-- The attribute lookup `A._tasks`. -/
def TwoPlanners.readA (s : TwoPlanners) : List Task := s.instA.getD s.classTasks

/-- The attribute lookup `B._tasks`. -/
def TwoPlanners.readB (s : TwoPlanners) : List Task := s.instB.getD s.classTasks

/-- `A._tasks.append(t)`, as a direct `plan_tensor` call on instance A performs
(plan.py line 227): mutates A's own list if one was assigned, otherwise the
shared class attribute. -/
def TwoPlanners.appendA (s : TwoPlanners) (t : Task) : TwoPlanners :=
  match s.instA with
  | some l => { s with instA := some (l ++ [t]) }
  | none => { s with classTasks := s.classTasks ++ [t] }

/-- `A._tasks = []`: the reset at the top of `A.plan()` (plan.py line 282),
which binds a freshly allocated instance-scoped list. -/
def TwoPlanners.resetA (s : TwoPlanners) : TwoPlanners := { s with instA := some [] }

/-- A concrete save task used by the C10 evaluation. -/
def svC10 : SaveTensorTask :=
  { tensor_name := "q_proj",
    tensor_task := { method := "linear", output_weight := wQ, tensors := { tasks := [] },
                     parameters := [], tensor_parameters := [], base_model := none },
    writer_task := { out_path := "out", max_shard_size := 0, safe_serialization := true },
    clone := false }

/-- C1: for a slice whose sources share common layer-range length `N`, the
interpolation fraction passed to layer planning is exactly `1` when `N = 1` and
exactly `idx / (N - 1)` when `N > 1`; over positions `0..N-1` it runs from `0`
to `1` and is strictly increasing in layer order. -/
theorem C1_interpolation_fraction (N : Nat) (hN : 1 ≤ N) :
    (N = 1 → ∀ idx, idx < N → slice_t (N : Int) idx = 1) ∧
    (1 < N → ∀ idx : Nat, slice_t (N : Int) idx = (idx : ℚ) / ((N : ℚ) - 1)) ∧
    (1 < N → slice_t (N : Int) 0 = 0 ∧ slice_t (N : Int) (N - 1) = 1) ∧
    List.Pairwise (· < ·) (slice_ts N) := by
  have hform : 1 < N → ∀ idx : Nat, slice_t (N : Int) idx = (idx : ℚ) / ((N : ℚ) - 1) := by
    intro h idx
    have : (N : Int) > 1 := by exact_mod_cast h
    simp [slice_t, this]
  refine ⟨?_, hform, ?_, ?_⟩
  · intro h1 idx _
    subst h1
    simp [slice_t]
  · intro h
    have hden : ((N : ℚ) - 1) ≠ 0 := by
      have : (1 : ℚ) < (N : ℚ) := by exact_mod_cast h
      linarith
    constructor
    · rw [hform h 0]; simp
    · rw [hform h (N - 1)]
      have hcast : ((N - 1 : Nat) : ℚ) = (N : ℚ) - 1 := by
        have : (1 : Nat) ≤ N := hN
        push_cast [Nat.cast_sub this]
        ring
      rw [hcast, div_self hden]
  · rcases Nat.lt_or_ge 1 N with h | h
    · have hpos : (0 : ℚ) < (N : ℚ) - 1 := by
        have : (1 : ℚ) < (N : ℚ) := by exact_mod_cast h
        linarith
      unfold slice_ts
      refine List.Pairwise.map _ ?_ (List.pairwise_lt_range N)
      intro a b hab
      rw [hform h a, hform h b]
      exact (div_lt_div_iff_of_pos_right hpos).mpr (by exact_mod_cast hab)
    · have hN1 : N = 1 := le_antisymm h hN
      subst hN1
      have : List.range 1 = [0] := rfl
      simp [slice_ts, this]

/-- Concrete check of C1 at `N = 4`. -/
theorem C1_interpolation_fraction_witness :
    (1 ≤ 4 ∧
      ((4 = 1 → ∀ idx, idx < 4 → slice_t (4 : Int) idx = 1) ∧
        (1 < 4 → ∀ idx : Nat, slice_t (4 : Int) idx = (idx : ℚ) / ((4 : ℚ) - 1)) ∧
        (1 < 4 → slice_t (4 : Int) 0 = 0 ∧ slice_t (4 : Int) (4 - 1) = 1) ∧
        List.Pairwise (· < ·) (slice_ts 4))) :=
  ⟨by decide, C1_interpolation_fraction 4 (by decide)⟩

/-- C5: a configuration that sets both the shorthand model list and the
explicit output-slice list fails normalization with the configuration error of
plan.py lines 120–123, and `plan` — whose first step is normalization, before
any task construction — fails with the same error, so no task list is ever
produced. -/
theorem C5_both_forms_rejected (env : PlannerEnv)
    (hm : optListTruthy env.config.models = true)
    (hs : optListTruthy env.config.slices = true) :
    normalize_config env.arch_dict env.config =
      .error (.runtime "Must specify either models to merge or output slices") ∧
    plan env =
      .error (.runtime "Must specify either models to merge or output slices") := by
  have h1 : normalize_config env.arch_dict env.config =
      .error (.runtime "Must specify either models to merge or output slices") := by
    simp [normalize_config, hm, hs]
  refine ⟨h1, ?_⟩
  unfold plan
  rw [h1]

/-- Concrete check of C5 on `envC5`: one model in the shorthand list and one
explicit slice set simultaneously. -/
theorem C5_both_forms_rejected_witness :
    (optListTruthy envC5.config.models = true ∧
      optListTruthy envC5.config.slices = true) ∧
    (normalize_config envC5.arch_dict envC5.config =
      .error (.runtime "Must specify either models to merge or output slices") ∧
    plan envC5 =
      .error (.runtime "Must specify either models to merge or output slices")) :=
  ⟨⟨by decide, by decide⟩, C5_both_forms_rejected envC5 (by decide) (by decide)⟩

/-- C6: normalization is idempotent. Running it once on a shorthand
configuration clears the shorthand field and sets a single explicit output
slice, and every successful run is a fixed point: running it again returns the
same configuration unchanged. -/
theorem C6_normalize_idempotent (arch : ModelReference → ConfiguredArchitectureInfo)
    (cfg : MergeConfiguration)
    (hm : optListTruthy cfg.models = true)
    (hs : optListTruthy cfg.slices = false) :
    ∃ cfg', normalize_config arch cfg = .ok cfg' ∧
      cfg'.models = none ∧ (∃ s, cfg'.slices = some [s]) ∧
      normalize_config arch cfg' = .ok cfg' := by
  refine ⟨{ cfg with slices := some [{ sources := norm_sources arch cfg }], models := none },
    ?_, rfl, ⟨_, rfl⟩, ?_⟩
  · simp [normalize_config, hm, hs]
  · simp [normalize_config, optListTruthy]

/-- Concrete check of C6 on a two-model shorthand configuration. -/
theorem C6_normalize_idempotent_witness :
    (optListTruthy (({ models := some [{ model := { path := "modelA" } },
          { model := { path := "modelB" } }] } : MergeConfiguration)).models = true ∧
      optListTruthy (({ models := some [{ model := { path := "modelA" } },
          { model := { path := "modelB" } }] } : MergeConfiguration)).slices = false) ∧
    (∃ cfg', normalize_config (fun _ => { num_layers := 3 })
          { models := some [{ model := { path := "modelA" } },
              { model := { path := "modelB" } }] } = .ok cfg' ∧
        cfg'.models = none ∧ (∃ s, cfg'.slices = some [s]) ∧
        normalize_config (fun _ => { num_layers := 3 }) cfg' = .ok cfg') :=
  ⟨⟨by decide, by decide⟩,
    C6_normalize_idempotent (fun _ => { num_layers := 3 })
      { models := some [{ model := { path := "modelA" } },
          { model := { path := "modelB" } }] }
      (by decide) (by decide)⟩

lemma norm_fold_snd (arch : ModelReference → ConfiguredArchitectureInfo)
    (bm : Option ModelReference) (ms : List InputModelDefinition) :
    ∀ a l, (ms.foldl (norm_step arch bm) (a, l)).2 =
      l ++ (ms.filter (fun mi => !decide (some mi.model = bm))).map (full_slice arch) := by
  induction ms with
  | nil => intro a l; simp
  | cons mi rest ih =>
    intro a l
    by_cases h : some mi.model = bm
    · simp [List.foldl_cons, norm_step, h, ih]
    · simp [List.foldl_cons, norm_step, h, ih]

lemma norm_fold_fst_cases (arch : ModelReference → ConfiguredArchitectureInfo)
    (bm : Option ModelReference) (ms : List InputModelDefinition) :
    ∀ a l, (ms.foldl (norm_step arch bm) (a, l)).1 = a ∨
      ∃ mi ∈ ms, some mi.model = bm ∧
        (ms.foldl (norm_step arch bm) (a, l)).1 = some (full_slice arch mi) := by
  induction ms with
  | nil => intro a l; exact Or.inl rfl
  | cons mi rest ih =>
    intro a l
    by_cases h : some mi.model = bm
    · rcases ih (some (full_slice arch mi)) l with h1 | ⟨mj, hmj, hbj, h2⟩
      · exact Or.inr ⟨mi, by simp, h, by simpa [List.foldl_cons, norm_step, h] using h1⟩
      · exact Or.inr ⟨mj, by simp [hmj], hbj, by simpa [List.foldl_cons, norm_step, h] using h2⟩
    · rcases ih a (l ++ [full_slice arch mi]) with h1 | ⟨mj, hmj, hbj, h2⟩
      · exact Or.inl (by simpa [List.foldl_cons, norm_step, h] using h1)
      · exact Or.inr ⟨mj, by simp [hmj], hbj, by simpa [List.foldl_cons, norm_step, h] using h2⟩

lemma norm_fold_fst_isSome (arch : ModelReference → ConfiguredArchitectureInfo)
    (bm : Option ModelReference) (ms : List InputModelDefinition)
    (x : InputSliceDefinition) (l : List InputSliceDefinition) :
    ∃ sl, (ms.foldl (norm_step arch bm) (some x, l)).1 = some sl := by
  rcases norm_fold_fst_cases arch bm ms (some x) l with h | ⟨mi, _, _, h⟩
  · exact ⟨x, h⟩
  · exact ⟨full_slice arch mi, h⟩

lemma norm_fold_fst_listed (arch : ModelReference → ConfiguredArchitectureInfo)
    (bm : Option ModelReference) (ms : List InputModelDefinition) :
    ∀ a l, (∃ mi ∈ ms, some mi.model = bm) →
      ∃ sl, (ms.foldl (norm_step arch bm) (a, l)).1 = some sl := by
  induction ms with
  | nil => intro a l h; simp at h
  | cons mi rest ih =>
    intro a l h
    by_cases hmi : some mi.model = bm
    · have := norm_fold_fst_isSome arch bm rest (full_slice arch mi) l
      simpa [List.foldl_cons, norm_step, hmi] using this
    · rcases h with ⟨mj, hmem, hbj⟩
      have hmem' : mj ∈ rest := by
        rcases List.mem_cons.mp hmem with h1 | h1
        · exact absurd (h1 ▸ hbj) hmi
        · exact h1
      have := ih a (l ++ [full_slice arch mi]) ⟨mj, hmem', hbj⟩
      simpa [List.foldl_cons, norm_step, hmi] using this

/-- C7: normalizing a shorthand model list with a declared base model `b`
yields a single output slice whose source list starts with a full-depth slice
for `b` — synthetic, with no parameter overrides, when `b` was not listed —
followed by the non-base models in their listing order, each spanning
`[0, layerCount(model))` with its listed parameter overrides. -/
theorem C7_base_model_first (arch : ModelReference → ConfiguredArchitectureInfo)
    (cfg : MergeConfiguration) (b : ModelReference)
    (hm : optListTruthy cfg.models = true)
    (hs : optListTruthy cfg.slices = false)
    (hb : cfg.base_model = some b) :
    ∃ head, normalize_config arch cfg = .ok { cfg with
        models := none,
        slices := some [{ sources := (head ::
          ((cfg.models.getD []).filter (fun mi => !decide (mi.model = b))).map
            (full_slice arch)) }] } ∧
      head.model = b ∧
      head.layer_range = (0, ((arch b).num_layers : Int)) ∧
      ((∀ mi ∈ cfg.models.getD [], mi.model ≠ b) →
        head = { model := b, layer_range := (0, ((arch b).num_layers : Int)),
                 parameters := none }) ∧
      ((∃ mi ∈ cfg.models.getD [], mi.model = b) →
        ∃ mi ∈ cfg.models.getD [], mi.model = b ∧ head = full_slice arch mi) := by
  have hnorm : normalize_config arch cfg =
      .ok { cfg with slices := some [{ sources := norm_sources arch cfg }], models := none } := by
    simp [normalize_config, hm, hs]
  have hfilter : (cfg.models.getD []).filter (fun mi => !decide (some mi.model = some b)) =
      (cfg.models.getD []).filter (fun mi => !decide (mi.model = b)) := by
    apply List.filter_congr
    intro mi _
    simp
  have hsnd := norm_fold_snd arch (some b) (cfg.models.getD []) none []
  have hsrc : norm_sources arch cfg =
      (match ((cfg.models.getD []).foldl (norm_step arch (some b)) (none, [])).1 with
        | some bs => bs
        | none => { model := b, layer_range := (0, ((arch b).num_layers : Int)),
                    parameters := none }) ::
        ((cfg.models.getD []).filter (fun mi => !decide (mi.model = b))).map
          (full_slice arch) := by
    unfold norm_sources
    rw [hb]
    simp only [hsnd, List.nil_append, hfilter]
  rcases hcases : ((cfg.models.getD []).foldl (norm_step arch (some b)) (none, [])).1
    with _ | bs
  · -- no listed base occurrence: the synthetic slice is used
    rw [hcases] at hsrc
    refine ⟨{ model := b, layer_range := (0, ((arch b).num_layers : Int)), parameters := none },
      ?_, rfl, rfl, fun _ => rfl, ?_⟩
    · rw [hnorm, hsrc]
    · intro hex
      rcases hex with ⟨mi, hmem, hmod⟩
      have hlisted : ∃ sl,
          ((cfg.models.getD []).foldl (norm_step arch (some b)) (none, [])).1 = some sl :=
        norm_fold_fst_listed arch (some b) (cfg.models.getD []) none []
          ⟨mi, hmem, by rw [hmod]⟩
      rw [hcases] at hlisted
      exact absurd hlisted (by simp)
  · -- the base model was listed: its (last) listed slice is used
    rw [hcases] at hsrc
    rcases norm_fold_fst_cases arch (some b) (cfg.models.getD []) none [] with h1 | h1
    · rw [hcases] at h1; exact absurd h1 (by simp)
    · rcases h1 with ⟨mi, hmem, hbase, heq⟩
      rw [hcases] at heq
      have hbs : bs = full_slice arch mi := by
        injection heq
      have hmib : mi.model = b := by
        injection hbase
      refine ⟨bs, ?_, ?_, ?_, ?_, ?_⟩
      · rw [hnorm, hsrc]
      · rw [hbs]; simp [full_slice, hmib]
      · rw [hbs]; simp [full_slice, hmib]
      · intro hall
        exact absurd hmib (hall mi hmem)
      · intro _
        exact ⟨mi, hmem, hmib, hbs⟩

/-- Concrete check of C7 on `cfgW7`: the synthetic full-depth `modelA` slice
lands at position 0, followed by `modelB` and `modelC` in listing order. -/
theorem C7_base_model_first_witness :
    (optListTruthy cfgW7.models = true ∧ optListTruthy cfgW7.slices = false ∧
      cfgW7.base_model = some { path := "modelA" }) ∧
    (∃ head, normalize_config archW7 cfgW7 = .ok { cfgW7 with
        models := none,
        slices := some [{ sources := (head ::
          ((cfgW7.models.getD []).filter
            (fun mi => !decide (mi.model = ({ path := "modelA" } : ModelReference)))).map
            (full_slice archW7)) }] } ∧
      head.model = ({ path := "modelA" } : ModelReference) ∧
      head.layer_range = (0, ((archW7 { path := "modelA" }).num_layers : Int)) ∧
      ((∀ mi ∈ cfgW7.models.getD [], mi.model ≠ ({ path := "modelA" } : ModelReference)) →
        head = { model := { path := "modelA" },
                 layer_range := (0, ((archW7 { path := "modelA" }).num_layers : Int)),
                 parameters := none }) ∧
      ((∃ mi ∈ cfgW7.models.getD [], mi.model = ({ path := "modelA" } : ModelReference)) →
        ∃ mi ∈ cfgW7.models.getD [],
          mi.model = ({ path := "modelA" } : ModelReference) ∧ head = full_slice archW7 mi)) :=
  ⟨⟨by decide, by decide, by decide⟩,
    C7_base_model_first archW7 cfgW7 { path := "modelA" } (by decide) (by decide) (by decide)⟩

/-- C2: resolving a tensor-scoped parameter flagged required, with no override
at any scope and no declared default, succeeds (with no value) when the acting
model is the base model, and fails with a configuration error naming the
parameter, the tensor, and the model otherwise. -/
theorem C2_required_base_exemption (cr : ConfigReader) (m : ModelReference)
    (wname : String) (p : ParamDef)
    (hreq : p.required = true) (hdef : p.default_value = none)
    (hno : no_override cr.config wname m p.name) :
    (cr.config.base_model = some m →
      tensor_param_value cr m wname p = .ok none) ∧
    (cr.config.base_model ≠ some m →
      tensor_param_value cr m wname p =
        .error (.missingParameter p.name wname (some m))) := by
  obtain ⟨h1, h2, h3, h4⟩ := hno
  constructor
  · intro hbase
    have hb : decide (some m = cr.config.base_model) = true := by
      rw [hbase]; simp
    simp [tensor_param_value, ConfigReader.parameter, ConfigReader.for_tensor,
      hb, h1, h2, h3, h4, hreq, hdef, Option.orElse]
  · intro hbase
    have hb : decide (some m = cr.config.base_model) = false := by
      simp only [decide_eq_false_iff_not]
      intro h
      exact hbase h.symm
    simp [tensor_param_value, ConfigReader.parameter, ConfigReader.for_tensor,
      hb, h1, h2, h3, h4, hreq, hdef, Option.orElse]

/-- Concrete check of C2: parameter `"weight"` of tensor `"w.0"` with base
model `modelA`, no overrides anywhere — resolution succeeds for `modelA` and
fails for `modelB` naming parameter, tensor, and model. -/
theorem C2_required_base_exemption_witness :
    ((({ base_model := some { path := "modelA" } } : MergeConfiguration)).base_model =
        some ({ path := "modelA" } : ModelReference) →
      tensor_param_value
          { config := { base_model := some { path := "modelA" } }, t := 0 }
          { path := "modelA" } "w.0" { name := "weight", required := true } = .ok none) ∧
    ((({ base_model := some { path := "modelA" } } : MergeConfiguration)).base_model ≠
        some ({ path := "modelB" } : ModelReference) →
      tensor_param_value
          { config := { base_model := some { path := "modelA" } }, t := 0 }
          { path := "modelB" } "w.0" { name := "weight", required := true } =
        .error (.missingParameter "weight" "w.0" (some { path := "modelB" }))) :=
  ⟨(C2_required_base_exemption
      { config := { base_model := some { path := "modelA" } }, t := 0 }
      { path := "modelA" } "w.0" { name := "weight", required := true }
      rfl rfl ⟨rfl, rfl, rfl, rfl⟩).1,
    (C2_required_base_exemption
      { config := { base_model := some { path := "modelA" } }, t := 0 }
      { path := "modelB" } "w.0" { name := "weight", required := true }
      rfl rfl ⟨rfl, rfl, rfl, rfl⟩).2⟩

/-- C4 (amended): an output slice whose sources disagree on layer-range length
makes `plan_slice` fail — for every environment and every planner state, so
before any per-tensor task of that slice is built — with the fixed structural
error `"All inputs to a slice must contain the same number of layers"`, which
does not name the offending slice. -/
theorem C4_slice_length_mismatch (d : OutputSliceDefinition)
    (h : ∃ a ∈ d.sources.map (fun s => s.layer_range.2 - s.layer_range.1),
         ∃ b ∈ d.sources.map (fun s => s.layer_range.2 - s.layer_range.1), a ≠ b) :
    ∀ env st, plan_slice env st d =
      .error (.runtime "All inputs to a slice must contain the same number of layers") := by
  intro env st
  unfold plan_slice
  split
  · next heq =>
    rw [heq] at h
    simp at h
  · next l0 rest heq =>
    rw [heq] at h
    cases hall : (l0 :: rest).all (fun s => s == l0) with
    | false => simp [hall]
    | true =>
      exfalso
      rcases h with ⟨a, ha, b, hb, hne⟩
      have ha' : a = l0 := by simpa using List.all_eq_true.mp hall a ha
      have hb' : b = l0 := by simpa using List.all_eq_true.mp hall b hb
      exact hne (ha'.trans hb'.symm)

/-- Concrete check of C4 (amended) at `sliceC4a`. -/
theorem C4_slice_length_mismatch_witness :
    (∃ a ∈ sliceC4a.sources.map (fun s => s.layer_range.2 - s.layer_range.1),
      ∃ b ∈ sliceC4a.sources.map (fun s => s.layer_range.2 - s.layer_range.1), a ≠ b) ∧
    plan_slice envC4 stEmpty sliceC4a =
      .error (.runtime "All inputs to a slice must contain the same number of layers") :=
  ⟨by decide, C4_slice_length_mismatch sliceC4a (by decide) envC4 stEmpty⟩

/-- C4 counterexample to "the error names the offending slice": two distinct
offending slices produce the identical error value — a fixed message carrying
no slice identity — so the raised error does not name the offending slice. -/
theorem C4_error_does_not_name_slice :
    sliceC4a ≠ sliceC4b ∧
    plan_slice envC4 stEmpty sliceC4a =
      .error (.runtime "All inputs to a slice must contain the same number of layers") ∧
    plan_slice envC4 stEmpty sliceC4b =
      .error (.runtime "All inputs to a slice must contain the same number of layers") :=
  ⟨by decide, rfl, rfl⟩

lemma plan_tensor_ok {env : PlannerEnv} {st : PlanState} {weight : WeightInfo}
    {weights_in : List WeightInfo} {models : List ModelReference}
    {cr : ConfigReader} {st' : PlanState}
    (h : plan_tensor env st weight weights_in models cr = .ok st') :
    ∃ gps tps, st' = { st with
      tasks := st.tasks ++
        [Task.save (planned_save env weight weights_in models gps tps)],
      events := st.events ++ planned_events env weight weights_in models } := by
  unfold plan_tensor at h
  dsimp only at h
  split at h
  · exact absurd h (by simp)
  · next gps hgeq =>
    split at h
    · exact absurd h (by simp)
    · next tps hteq =>
      refine ⟨gps, tps, ?_⟩
      injection h with h'
      exact h'.symm

/-- C3: a planned output weight's merge-compute task carries the
vocabulary-permutation method if and only if a tokenizer-build task exists
(which is exactly when the configuration requests a tokenizer merge) and the
weight is flagged as embedding or lm-head; otherwise it carries the configured
method. -/
theorem C3_tokenizer_routing (env : PlannerEnv) (st st' : PlanState)
    (weight : WeightInfo) (weights_in : List WeightInfo)
    (models : List ModelReference) (cr : ConfigReader)
    (hm : env.method.id ≠ tokenizerPermutationMerge.id)
    (h : plan_tensor env st weight weights_in models cr = .ok st') :
    (env.tokenizer_task.isSome = strTruthy env.config.tokenizer_source) ∧
    ∃ sv, st'.tasks = st.tasks ++ [Task.save sv] ∧
      (sv.tensor_task.method = tokenizerPermutationMerge.id ↔
        env.tokenizer_task.isSome = true ∧
          (weight.is_embed = true ∨ weight.is_lm_head = true)) ∧
      (¬ (env.tokenizer_task.isSome = true ∧
          (weight.is_embed = true ∨ weight.is_lm_head = true)) →
        sv.tensor_task.method = env.method.id) := by
  constructor
  · unfold PlannerEnv.tokenizer_task
    split
    · next hcond => simp [hcond]
    · next hcond =>
      simp only [Bool.not_eq_true] at hcond
      simp [hcond]
  · obtain ⟨gps, tps, rfl⟩ := plan_tensor_ok h
    refine ⟨planned_save env weight weights_in models gps tps, rfl, ?_⟩
    by_cases hc : (env.tokenizer_task.isSome && (weight.is_embed || weight.is_lm_head)) = true
    · have hsel : select_merge_method env.tokenizer_task env.method weight =
          tokenizerPermutationMerge := by
        simp [select_merge_method, hc]
      have hprop : env.tokenizer_task.isSome = true ∧
          (weight.is_embed = true ∨ weight.is_lm_head = true) := by
        simpa using hc
      refine ⟨⟨fun _ => hprop, fun _ => ?_⟩, fun hn => absurd hprop hn⟩
      simp [planned_save, MergeMethod.make_task, hsel]
    · have hsel : select_merge_method env.tokenizer_task env.method weight = env.method := by
        simp only [Bool.not_eq_true] at hc
        simp [select_merge_method, hc]
      have hprop : ¬ (env.tokenizer_task.isSome = true ∧
          (weight.is_embed = true ∨ weight.is_lm_head = true)) := by
        simpa using hc
      refine ⟨⟨fun hid => ?_, fun hp => absurd hp hprop⟩, fun _ => ?_⟩
      · exfalso
        apply hm
        have : (planned_save env weight weights_in models gps tps).tensor_task.method =
            env.method.id := by
          simp [planned_save, MergeMethod.make_task, hsel]
        rw [this] at hid
        exact hid
      · simp [planned_save, MergeMethod.make_task, hsel]

/-- Concrete check of C3: with a tokenizer merge requested and a linear
configured method, planning the embedding weight routes it to the
vocabulary-permutation method. -/
theorem C3_tokenizer_routing_witness :
    envC3.method.id ≠ tokenizerPermutationMerge.id ∧
    ∃ st', plan_tensor envC3 stEmpty wEmb [wEmb] [mrefA] crC3 = .ok st' ∧
      ((envC3.tokenizer_task.isSome = strTruthy envC3.config.tokenizer_source) ∧
        ∃ sv, st'.tasks = stEmpty.tasks ++ [Task.save sv] ∧
          (sv.tensor_task.method = tokenizerPermutationMerge.id ↔
            envC3.tokenizer_task.isSome = true ∧
              (wEmb.is_embed = true ∨ wEmb.is_lm_head = true)) ∧
          (¬ (envC3.tokenizer_task.isSome = true ∧
              (wEmb.is_embed = true ∨ wEmb.is_lm_head = true)) →
            sv.tensor_task.method = envC3.method.id)) :=
  ⟨by decide, _, rfl,
    C3_tokenizer_routing envC3 stEmpty _ wEmb [wEmb] [mrefA] crC3 (by decide) rfl⟩

lemma StepOK_refl (active : Bool) (st : PlanState) : StepOK active st st :=
  ⟨⟨[], by simp, rfl⟩, ⟨[], by simp, rfl⟩, id⟩

lemma StepOK_trans {active : Bool} {st1 st2 st3 : PlanState}
    (h1 : StepOK active st1 st2) (h2 : StepOK active st2 st3) :
    StepOK active st1 st3 := by
  obtain ⟨⟨s1, ht1, ha1⟩, ⟨e1, he1, hb1⟩, hg1⟩ := h1
  obtain ⟨⟨s2, ht2, ha2⟩, ⟨e2, he2, hb2⟩, hg2⟩ := h2
  refine ⟨⟨s1 ++ s2, by rw [ht2, ht1, List.append_assoc], ?_⟩,
    ⟨e1 ++ e2, by rw [he2, he1, List.append_assoc], ?_⟩,
    fun hg => hg2 (hg1 hg)⟩
  · rw [List.all_append, ha1, ha2]; rfl
  · rw [List.all_append, hb1, hb2]; rfl

lemma planned_events_no_space (env : PlannerEnv) (w : WeightInfo)
    (win : List WeightInfo) (ms : List ModelReference) :
    (planned_events env w win ms).all (fun e => !PlanEvent.isRegisterSpace e) = true := by
  rw [List.all_eq_true]
  intro e he
  unfold planned_events at he
  split at he
  · rcases List.mem_cons.mp he with rfl | he'
    · rfl
    · obtain ⟨ml, _, rfl⟩ := List.mem_map.mp he'
      rfl
  · simp at he

lemma planned_save_aligned (env : PlannerEnv) (w : WeightInfo)
    (win : List WeightInfo) (ms : List ModelReference)
    (gps : List (String × Option ParamValue))
    (tps : List (ModelReference × List (String × Option ParamValue)))
    (hact : env.space_planner_active = true) :
    save_aligned (planned_save env w win ms gps tps) = true := by
  simp only [save_aligned, planned_save, MergeMethod.make_task, planned_inputs, hact,
    if_true]
  rw [List.all_eq_true]
  intro mi hmi
  obtain ⟨ml, _, rfl⟩ := List.mem_map.mp hmi
  rfl

lemma planned_save_pairs (env : PlannerEnv) (w : WeightInfo)
    (win : List WeightInfo) (ms : List ModelReference)
    (gps : List (String × Option ParamValue))
    (tps : List (ModelReference × List (String × Option ParamValue)))
    (hact : env.space_planner_active = true) :
    save_pairs (planned_save env w win ms gps tps) =
      (ms.zip win).map (fun mw => (mw.1, mw.2.name)) := by
  simp only [save_pairs, planned_save, MergeMethod.make_task, planned_inputs,
    planned_loads, hact, if_true, List.map_map]
  rfl

lemma plan_tensor_StepOK {env : PlannerEnv} {st : PlanState} {w : WeightInfo}
    {win : List WeightInfo} {ms : List ModelReference} {cr : ConfigReader}
    {st' : PlanState} (h : plan_tensor env st w win ms cr = .ok st') :
    StepOK env.space_planner_active st st' := by
  obtain ⟨gps, tps, rfl⟩ := plan_tensor_ok h
  refine ⟨⟨[Task.save (planned_save env w win ms gps tps)], rfl, rfl⟩,
    ⟨planned_events env w win ms, rfl, planned_events_no_space env w win ms⟩, ?_⟩
  intro hg hact sv hmem
  rcases List.mem_append.mp hmem with hold | hnew
  · obtain ⟨h1, h2⟩ := hg hact sv hold
    exact ⟨h1, List.mem_append_left _ h2⟩
  · have heq := List.mem_singleton.mp hnew
    have hsv : sv = planned_save env w win ms gps tps := by
      injection heq
    subst hsv
    refine ⟨planned_save_aligned env w win ms gps tps hact, ?_⟩
    apply List.mem_append_right
    have hn : (planned_save env w win ms gps tps).tensor_name = w.name := rfl
    rw [hn, planned_save_pairs env w win ms gps tps hact]
    unfold planned_events
    rw [hact]
    exact List.mem_cons_self _ _

lemma foldE_StepOK {α : Type} {active : Bool}
    {f : PlanState → α → Except PlanError PlanState}
    (hf : ∀ st x st', f st x = .ok st' → StepOK active st st') :
    ∀ (l : List α) (st st' : PlanState), foldE f st l = .ok st' → StepOK active st st' := by
  intro l
  induction l with
  | nil =>
    intro st st' h
    unfold foldE at h
    injection h with h'
    subst h'
    exact StepOK_refl active st
  | cons x xs ih =>
    intro st st' h
    unfold foldE at h
    split at h
    · exact absurd h (by simp)
    · next st1 heq =>
      exact StepOK_trans (hf st x st1 heq) (ih st1 st' h)

lemma plan_layer_StepOK {env : PlannerEnv} {st : PlanState}
    {sources : List InputSliceDefinition} {off : Nat} {t : ℚ} {cr : ConfigReader}
    {st' : PlanState} (h : plan_layer env st sources off t cr = .ok st') :
    StepOK env.space_planner_active st st' := by
  unfold plan_layer at h
  dsimp only at h
  split at h
  · exact absurd h (by simp)
  · next st1 heq =>
    have h1 : StepOK env.space_planner_active st st1 :=
      foldE_StepOK (fun st x st' hx => plan_tensor_StepOK hx) _ st st1 heq
    injection h with h'
    subst h'
    refine StepOK_trans h1 ⟨⟨[], by simp, rfl⟩, ⟨[], by simp, rfl⟩, ?_⟩
    intro hg hact sv hmem
    exact hg hact sv hmem

lemma plan_slice_StepOK {env : PlannerEnv} {st : PlanState}
    {d : OutputSliceDefinition} {st' : PlanState}
    (h : plan_slice env st d = .ok st') :
    StepOK env.space_planner_active st st' := by
  unfold plan_slice at h
  split at h
  · exact absurd h (by simp)
  · next l0 rest heq =>
    dsimp only at h
    split at h
    · exact absurd h (by simp)
    · exact foldE_StepOK (fun st x st' hx => plan_layer_StepOK hx) _ st st' h

lemma plan_body_shape {env : PlannerEnv} {res : List Task} {evs : List PlanEvent}
    (h : plan_body env = .ok (res, evs)) :
    ∃ stF, StepOK env.space_planner_active (init_state env) stF ∧
      evs = stF.events ∧
      res = stF.tasks ++ [Task.finalize stF.tasks env.writer_task] ++
        (match env.tokenizer_task with
          | some tk => [Task.tokenizerBuild tk]
          | none => []) := by
  unfold plan_body at h
  split at h
  · exact absurd h (by simp)
  · next s0 rest heq =>
    dsimp only at h
    split at h
    · exact absurd h (by simp)
    · next st1 h1 =>
      split at h
      · exact absurd h (by simp)
      · next st2 h2 =>
        split at h
        · exact absurd h (by simp)
        · next st3 h3 =>
          have hs1 : StepOK env.space_planner_active (init_state env) st1 :=
            foldE_StepOK (fun st x st' hx => plan_tensor_StepOK hx) _ _ st1 h1
          have hs2 : StepOK env.space_planner_active st1 st2 :=
            foldE_StepOK (fun st x st' hx => plan_slice_StepOK hx) _ _ st2 h2
          have hs3 : StepOK env.space_planner_active st2 st3 :=
            foldE_StepOK (fun st x st' hx => plan_tensor_StepOK hx) _ _ st3 h3
          refine ⟨st3, StepOK_trans (StepOK_trans hs1 hs2) hs3, ?_⟩
          rcases htk : env.tokenizer_task with _ | tk
          · rw [htk] at h
            injection h with h'
            injection h' with hres hevs
            subst hres
            subst hevs
            refine ⟨rfl, ?_⟩
            simp
          · rw [htk] at h
            injection h with h'
            injection h' with hres hevs
            subst hres
            subst hevs
            exact ⟨rfl, rfl⟩

lemma normalize_preserves_fields (arch : ModelReference → ConfiguredArchitectureInfo)
    (cfg cfg' : MergeConfiguration) (h : normalize_config arch cfg = .ok cfg') :
    cfg'.base_model = cfg.base_model ∧ cfg'.tokenizer_source = cfg.tokenizer_source ∧
    cfg'.align_weights = cfg.align_weights ∧ cfg'.dtype = cfg.dtype := by
  unfold normalize_config at h
  split at h
  · split at h
    · exact absurd h (by simp)
    · injection h with h'
      subst h'
      exact ⟨rfl, rfl, rfl, rfl⟩
  · injection h with h'
    subst h'
    exact ⟨rfl, rfl, rfl, rfl⟩

lemma tokenizer_task_congr (env : PlannerEnv) (cfg' : MergeConfiguration)
    (h1 : cfg'.tokenizer_source = env.config.tokenizer_source)
    (h2 : cfg'.base_model = env.config.base_model) :
    PlannerEnv.tokenizer_task { env with config := cfg' } = env.tokenizer_task := by
  simp [PlannerEnv.tokenizer_task, h1, h2]

lemma space_active_congr (env : PlannerEnv) (cfg' : MergeConfiguration)
    (h1 : cfg'.base_model = env.config.base_model)
    (h2 : cfg'.align_weights = env.config.align_weights) :
    PlannerEnv.space_planner_active { env with config := cfg' } =
      env.space_planner_active := by
  simp [PlannerEnv.space_planner_active, h1, h2]

/-- C8: on every successful planning pass, the returned list is exactly the
save tasks in order, then one finalize task whose dependency list is exactly
those save tasks (never a proper subset), then — only when a tokenizer merge
was requested — the independent tokenizer-build task as the sole entry after
the finalize task. -/
theorem C8_finalize_depends_on_all_saves (env : PlannerEnv)
    (res : List Task) (evs : List PlanEvent)
    (h : plan env = .ok (res, evs)) :
    ∃ saves, saves.all isSaveTask = true ∧
      res = saves ++ [Task.finalize saves env.writer_task] ++
        (match env.tokenizer_task with
          | some tk => [Task.tokenizerBuild tk]
          | none => []) := by
  unfold plan at h
  split at h
  · exact absurd h (by simp)
  · next cfg hnorm =>
    obtain ⟨hb, hts, hal, _⟩ := normalize_preserves_fields _ _ _ hnorm
    have htok : PlannerEnv.tokenizer_task { env with config := cfg } =
        env.tokenizer_task := tokenizer_task_congr env cfg hts hb
    obtain ⟨stF, hstep, hevs, hres⟩ := plan_body_shape h
    refine ⟨stF.tasks, ?_, ?_⟩
    · obtain ⟨⟨suffix, hta, hall⟩, _, _⟩ := hstep
      rw [hta]
      simpa [init_state] using hall
    · rw [hres, htok]
      rfl

/-- Concrete check of C8 on `envC8` (tokenizer merge requested): the finalize
task depends on all four save tasks and the tokenizer-build task is the only
entry after it. -/
theorem C8_finalize_depends_on_all_saves_witness :
    ∃ res evs, plan envC8 = .ok (res, evs) ∧
      ∃ saves, saves.all isSaveTask = true ∧
        res = saves ++ [Task.finalize saves envC8.writer_task] ++
          (match envC8.tokenizer_task with
            | some tk => [Task.tokenizerBuild tk]
            | none => []) :=
  ⟨_, _, rfl, C8_finalize_depends_on_all_saves envC8 _ _ rfl⟩

/-- C9 (amended): when the alignment toggle is enabled AND a base model is
declared — the condition under which `__init__` creates the space planner —
every procedural space of the output architecture is registered before any
other alignment-accumulator call, every save task in the result had its output
weight registered with its per-model (model, source-tensor) pairs, and every
gather input of every save task is wrapped by an alignment task. -/
theorem C9_alignment_pipeline (env : PlannerEnv) (res : List Task)
    (evs : List PlanEvent)
    (hact : env.space_planner_active = true)
    (h : plan env = .ok (res, evs)) :
    (∃ rest, evs = env.arch_info.procedural_spaces.map PlanEvent.registerSpace ++ rest ∧
      rest.all (fun e => !PlanEvent.isRegisterSpace e) = true) ∧
    (∀ sv, Task.save sv ∈ res →
      save_aligned sv = true ∧
      PlanEvent.registerWeight sv.tensor_name (save_pairs sv) ∈ evs) := by
  unfold plan at h
  split at h
  · exact absurd h (by simp)
  · next cfg hnorm =>
    obtain ⟨hb, hts, hal, _⟩ := normalize_preserves_fields _ _ _ hnorm
    have hact' : PlannerEnv.space_planner_active { env with config := cfg } = true := by
      rw [space_active_congr env cfg hb hal]
      exact hact
    obtain ⟨stF, hstep, hevs, hres⟩ := plan_body_shape h
    obtain ⟨⟨suffix, hta, hsall⟩, ⟨es, hea, heall⟩, hgood⟩ := hstep
    have hg0 : GoodState (PlannerEnv.space_planner_active { env with config := cfg })
        (init_state { env with config := cfg }) := by
      intro _ sv hmem
      simp [init_state] at hmem
    have hgF := hgood hg0
    constructor
    · refine ⟨es, ?_, heall⟩
      rw [hevs, hea]
      simp [init_state, hact']
    · intro sv hmem
      rw [hres] at hmem
      rcases List.mem_append.mp hmem with h1 | h1
      · rcases List.mem_append.mp h1 with h2 | h2
        · have hsv := hgF hact' sv h2
          exact ⟨hsv.1, by rw [hevs]; exact hsv.2⟩
        · exact absurd (List.mem_singleton.mp h2) (by simp)
      · rcases htk : PlannerEnv.tokenizer_task { env with config := cfg } with _ | tk
        · rw [htk] at h1
          simp at h1
        · rw [htk] at h1
          exact absurd (List.mem_singleton.mp h1) (by simp)

/-- C9 counterexample to the claim as stated: with the alignment toggle
enabled but no base model declared, planning succeeds while registering
nothing — the event trace is empty although the output architecture declares a
procedural space — and a planned save task's gather input is not wrapped by
any alignment task. -/
theorem C9_alignment_toggle_insufficient :
    envC9.config.align_weights = true ∧
    envC9.arch_info.procedural_spaces ≠ [] ∧
    ∃ res evs, plan envC9 = .ok (res, evs) ∧ evs = [] ∧
      ∃ sv, Task.save sv ∈ res ∧ save_aligned sv = false := by
  refine ⟨rfl, by decide, ?_⟩
  refine ⟨_, _, rfl, rfl, ?_⟩
  exact ⟨_, List.Mem.head _, rfl⟩

/-- Concrete check of C9 (amended) on `envC9b`: alignment toggle enabled and
base model declared. -/
theorem C9_alignment_pipeline_witness :
    envC9b.space_planner_active = true ∧
    ∃ res evs, plan envC9b = .ok (res, evs) ∧
      ((∃ rest,
          evs = envC9b.arch_info.procedural_spaces.map PlanEvent.registerSpace ++ rest ∧
          rest.all (fun e => !PlanEvent.isRegisterSpace e) = true) ∧
        (∀ sv, Task.save sv ∈ res →
          save_aligned sv = true ∧
          PlanEvent.registerWeight sv.tensor_name (save_pairs sv) ∈ evs)) :=
  ⟨rfl, _, _, rfl, C9_alignment_pipeline envC9b _ _ rfl rfl⟩

/-- C10 (code bug): `_tasks` is a class-level mutable default (plan.py line
53) and `__init__` allocates no instance-scoped list, so at construction two
planner instances alias one shared task list: a task appended through the
first instance before its `plan()` reset is observable in the second
instance's `_tasks`. Only the reset at the top of `plan()` (line 282) gives an
instance its own freshly allocated list. -/
theorem C10_shared_class_default :
    twoFreshPlanners.readB = [] ∧
    (twoFreshPlanners.appendA (Task.save svC10)).readB = [Task.save svC10] ∧
    ((twoFreshPlanners.resetA.appendA (Task.save svC10)).readB = []) :=
  ⟨rfl, rfl, rfl⟩

end Mergekit
